import Mathlib

/-!
Verification development for the Credential & Authorization Broker of the
google-workspace-mcp repository.  The definitions below are shallow
embeddings of the TypeScript/JavaScript source under `src/`:

* `src/src/configSchema.ts` — `validateConfig`, the default schema;
* `src/src/server.ts` — `getAllowlist`, `isRedirectAllowed`, `verifyPkce`,
  the `/register` and `/token` handlers, and the API-key branch of
  `authMiddleware`;
* `src/src/crypto.js` + `src/src/env.ts` — `sha256Hex` (kept abstract),
  `base64url`, `encryptJson`, `decryptJson`, `isHex64`, `getDerivedKey`;
* the administrative CLI — `revokeApiKey`.

Platform primitives (SHA-256, AES-256-GCM, the WHATWG URL parser, JSON
serialisation) are not part of the repository; they are taken as explicit
function parameters, with their documented contracts as hypotheses where a
theorem needs them.  `urlHostnameModel` is a concrete executable model of
the URL hostname getter for the plain http(s) URIs used in examples.

JavaScript string builtins (`split`, `trim`, `toLowerCase`, `endsWith`)
are modelled by the `js`-prefixed helpers, written by structural recursion
on character lists so that concrete examples evaluate by `decide`.
-/

/-! ## JavaScript string helpers -/

/-- `String.prototype.split` with a single-character separator, on
character lists. -/
def splitChar (sep : Char) : List Char → List (List Char)
  | [] => [[]]
  | c :: rest =>
    if c == sep then [] :: splitChar sep rest
    else
      match splitChar sep rest with
      | [] => [[c]]
      | g :: gs => (c :: g) :: gs

/-- `String.prototype.split` with a single-character separator. -/
def jsSplit (sep : Char) (s : String) : List String :=
  (splitChar sep s.toList).map String.mk

/-- Whitespace characters removed by `String.prototype.trim` (the subset
relevant here). -/
def isJsSpace (c : Char) : Bool :=
  c == ' ' || c == '\t' || c == '\n' || c == '\r'

/-- `String.prototype.trim`. -/
def jsTrim (s : String) : String :=
  String.mk (((s.toList.dropWhile isJsSpace).reverse.dropWhile isJsSpace).reverse)

/-- ASCII lower-casing of one character, as `String.prototype.toLowerCase`
does for the ASCII range. -/
def asciiLower (c : Char) : Char :=
  if 65 ≤ c.toNat && c.toNat ≤ 90 then Char.ofNat (c.toNat + 32) else c

/-- `String.prototype.toLowerCase` (ASCII range). -/
def jsToLower (s : String) : String :=
  String.mk (s.toList.map asciiLower)

/-- Whether the first list is a prefix of the second (Boolean, by
structural recursion). -/
def leadsWith : List Char → List Char → Bool
  | [], _ => true
  | _ :: _, [] => false
  | a :: as, b :: bs => a == b && leadsWith as bs

/-- `String.prototype.endsWith`. -/
def jsEndsWith (s post : String) : Bool :=
  leadsWith post.toList.reverse s.toList.reverse

/-! ## Config schema and validator (`src/src/configSchema.ts`) -/

/-- JSON values, for the payloads handled by `validateConfig`. -/
inductive Json where
  | null
  | str (s : String)
  | num (n : Int)
  | bool (b : Bool)
  | arr (elems : List Json)
  | obj (members : List (String × Json))

/-- One field of a config schema (`ConfigField` in `configSchema.ts`). -/
structure ConfigField where
  name : String
  label : String
  type : String
  required : Bool
  description : String
  sensitive : Bool
  format : Option String

/-- A config schema (`ConfigSchema`). -/
structure ConfigSchema where
  fields : List ConfigField

/-- The default schema shipped in `configSchema.ts`: required `apiKey`
(password, sensitive), required `teamId` (text), optional `scopes`
(text, format csv). -/
def defaultSchema : ConfigSchema :=
  { fields :=
      [ { name := "apiKey", label := "API Key", type := "password",
          required := true,
          description := "Secret key used to authenticate to the upstream service.",
          sensitive := true, format := none },
        { name := "teamId", label := "Team ID", type := "text",
          required := true,
          description := "Identifier for the target team or workspace.",
          sensitive := false, format := none },
        { name := "scopes", label := "Scopes", type := "text",
          required := false,
          description := "Comma-separated list of scopes to request.",
          sensitive := false, format := some "csv" } ] }

/-- `getSchema()`. -/
def getSchema : ConfigSchema := defaultSchema

/-- Property lookup `data[field.name]` on a JSON object represented as an
association list; `none` models `undefined`. -/
def lookupField (data : List (String × Json)) (name : String) : Option Json :=
  (data.find? (fun kv => kv.1 == name)).map (·.2)

/-- `value === undefined || value === null || value === ''` — the
emptiness test used for required fields. -/
def isMissingEmpty : Option Json → Bool
  | none => true
  | some .null => true
  | some (.str s) => s == ""
  | some _ => false

/-- `typeof value === 'boolean'`. -/
def isJsonBool : Json → Bool
  | .bool _ => true
  | _ => false

/-- `Array.isArray(value)`. -/
def isJsonArr : Json → Bool
  | .arr _ => true
  | _ => false

/-- `typeof value === 'object'` for the JSON values that reach the check
(null is filtered out earlier; arrays and objects both have typeof
'object'). -/
def isJsonObjType : Json → Bool
  | .arr _ => true
  | .obj _ => true
  | .null => true
  | _ => false

/-- `typeof value === 'string'`. -/
def isJsonStr : Json → Bool
  | .str _ => true
  | _ => false

/-- The body of the `fields.forEach` loop in `validateConfig`: the error
pushed for one field, if any.  Mirrors the early-return structure of the
source. -/
def fieldError (data : List (String × Json)) (field : ConfigField) : Option String :=
  let value := lookupField data field.name
  if field.required && isMissingEmpty value then
    some (field.name ++ " is required")
  else
    match value with
    | none => none
    | some .null => none
    | some v =>
      if field.type == "checkbox" && !isJsonBool v then
        some (field.name ++ " must be a boolean")
      else if field.format == some "csv" && !isJsonArr v then
        some (field.name ++ " must be a list")
      else if field.format == some "json" && !isJsonObjType v then
        some (field.name ++ " must be JSON")
      else if field.format == none && field.type != "checkbox" && !isJsonStr v then
        some (field.name ++ " must be a string")
      else none

/-- Result of `validateConfig`. -/
structure ValidationResult where
  valid : Bool
  errors : List String
deriving DecidableEq, Repr

/-- `validateConfig(schema, payload)` from `configSchema.ts`: walks every
field, pushing one error per violating field. -/
def validateConfig (schema : ConfigSchema) (payload : List (String × Json)) :
    ValidationResult :=
  let errors :=
    schema.fields.foldl
      (fun acc f =>
        match fieldError payload f with
        | some e => acc ++ [e]
        | none => acc) []
  { valid := errors.length == 0, errors := errors }

/-! ## Redirect allowlist (`src/src/server.ts` lines 59–80) -/

/-- `getAllowlist()`: split the `REDIRECT_URI_ALLOWLIST` config string on
commas, trim and lower-case each item, drop empties. -/
def getAllowlist (allowcfg : String) : List String :=
  ((jsSplit ',' allowcfg).map (fun item => jsToLower (jsTrim item))).filter
    (fun s => !(s == ""))

/-- The allowlist test shared by `isRedirectAllowed` and `/register`:
`allowlist.some(domain => hostname === domain || hostname.endsWith('.' + domain))`. -/
def hostMatchesAllowlist (allowlist : List String) (hostname : String) : Bool :=
  allowlist.any (fun domain => hostname == domain || jsEndsWith hostname ("." ++ domain))

/-- `isRedirectAllowed(redirectUri, clientRedirects)`.  `parseHost` stands
for `u => new URL(u).hostname` (`none` models the constructor throwing);
`allowcfg` is the raw allowlist configuration string. -/
def isRedirectAllowed (parseHost : String → Option String) (allowcfg : String)
    (redirectUri : String) (clientRedirects : List String) : Bool :=
  if !(clientRedirects.contains redirectUri) then false
  else if (getAllowlist allowcfg).isEmpty then false
  else
    match parseHost redirectUri with
    | none => false
    | some h => hostMatchesAllowlist (getAllowlist allowcfg) (jsToLower h)

/-- Scan a character list for the first `"://"`, returning the characters
before it and after it. -/
def findSchemeSep : List Char → Option (List Char × List Char)
  | ':' :: '/' :: '/' :: rest => some ([], rest)
  | c :: rest => (findSchemeSep rest).map (fun p => (c :: p.1, p.2))
  | [] => none

/-- Concrete model of the WHATWG URL hostname getter (Node's
`new URL(u).hostname`) for the plain http(s) URIs exercised in the
examples: requires a nonempty scheme before `"://"`, takes the authority
up to the first `/`, `?` or `#`, drops any userinfo before the last `@`
and any `:port` suffix; `none` models the constructor throwing. -/
def urlHostnameModel (u : String) : Option String :=
  match findSchemeSep u.toList with
  | none => none
  | some (scheme, rest) =>
    if scheme.isEmpty then none
    else
      let authority := rest.takeWhile (fun c => !(c == '/' || c == '?' || c == '#'))
      let afterAt := authority.foldl (fun acc c => if c == '@' then [] else acc ++ [c]) []
      let host := afterAt.takeWhile (fun c => !(c == ':'))
      if host.isEmpty then none else some (String.mk host)

/-- The specification's reading of `isRedirectAllowed` (C5): literal
membership in the client's registered set, a non-empty operator
allowlist, and a parsed hostname matching some allowlist domain exactly
or as a `.domain` suffix. -/
def redirectAllowedSpec (parseHost : String → Option String) (allowcfg : String)
    (redirectUri : String) (clientRedirects : List String) : Prop :=
  redirectUri ∈ clientRedirects ∧
  getAllowlist allowcfg ≠ [] ∧
  ∃ h, parseHost redirectUri = some h ∧
    ∃ domain ∈ getAllowlist allowcfg,
      jsToLower h = domain ∨ jsEndsWith (jsToLower h) ("." ++ domain) = true

/-! ## Persistence rows (`src/src/db.ts` schema) -/

/-- A `clients` row. -/
structure ClientRow where
  clientId : String
  redirectUris : List String
deriving DecidableEq, Repr

/-- A `connections` row (the fields the token exchange reads). -/
structure ConnectionRow where
  id : String
  clientId : String
deriving DecidableEq, Repr

/-- An `auth_codes` row.  Timestamps are milliseconds since the epoch. -/
structure AuthCodeRow where
  codeHash : String
  connectionId : String
  codeChallenge : String
  codeChallengeMethod : String
  expiresAt : Nat
deriving DecidableEq, Repr

/-- A `sessions` row. -/
structure SessionRow where
  id : String
  tokenHash : String
  connectionId : String
  expiresAt : Nat
  createdAt : Nat
deriving DecidableEq, Repr

/-- The tables touched by the OAuth endpoints. -/
structure Db where
  clients : List ClientRow
  connections : List ConnectionRow
  authCodes : List AuthCodeRow
  sessions : List SessionRow
deriving DecidableEq, Repr

/-! ## PKCE (`src/src/server.ts` lines 92–98, `src/src/crypto.js` base64url) -/

/-- A byte. -/
abbrev Byte := Fin 256

/-- The standard base64 alphabet. -/
def base64Chars : List Char :=
  "ABCDEFGHIJKLMNOPQRSTUVWXYZabcdefghijklmnopqrstuvwxyz0123456789+/".toList

/-- Base64-encode (with padding), three input bytes per four output
characters, as `Buffer.prototype.toString('base64')`. -/
def b64Groups : List Byte → List Char
  | b1 :: b2 :: b3 :: rest =>
    base64Chars.getD (b1.val / 4) 'A' ::
    base64Chars.getD ((b1.val % 4) * 16 + b2.val / 16) 'A' ::
    base64Chars.getD ((b2.val % 16) * 4 + b3.val / 64) 'A' ::
    base64Chars.getD (b3.val % 64) 'A' :: b64Groups rest
  | [b1, b2] =>
    [base64Chars.getD (b1.val / 4) 'A',
     base64Chars.getD ((b1.val % 4) * 16 + b2.val / 16) 'A',
     base64Chars.getD ((b2.val % 16) * 4) 'A', '=']
  | [b1] =>
    [base64Chars.getD (b1.val / 4) 'A',
     base64Chars.getD ((b1.val % 4) * 16) 'A', '=', '=']
  | [] => []

/-- `base64url(buffer)` from `crypto.js`: base64 with `=` stripped, `+`
mapped to `-` and `/` to `_`. -/
def base64url (buffer : List Byte) : String :=
  String.mk (((b64Groups buffer).filter (fun c => !(c == '='))).map
    (fun c => if c == '+' then '-' else if c == '/' then '_' else c))

/-- `verifyPkce(method, codeChallenge, verifier)`.  `sha256Bytes` stands
for `crypto.createHash('sha256').update(verifier, 'utf8').digest()`. -/
def verifyPkce (sha256Bytes : String → List Byte)
    (method codeChallenge verifier : String) : Bool :=
  if method == "plain" then codeChallenge == verifier
  else base64url (sha256Bytes verifier) == codeChallenge

/-! ## Client registration (`src/src/server.ts` lines 487–531) -/

/-- Response of `POST /register`. -/
inductive RegisterResult where
  | badRequest (msg : String)
  | created (clientId : String)
deriving DecidableEq, Repr

/-- Per-URI admission used by the `/register` loop: parse, lower-case the
hostname, test it against the allowlist. -/
def hostPasses (parseHost : String → Option String) (allowlist : List String)
    (uri : String) : Bool :=
  match parseHost uri with
  | none => false
  | some h => hostMatchesAllowlist allowlist (jsToLower h)

/-- The `for (const uri of redirectUris)` loop of `/register`: the first
failing URI aborts with its error message, otherwise all URIs are
collected (`normalized`). -/
def checkUris (parseHost : String → Option String) (allowlist : List String) :
    List String → Except String (List String)
  | [] => .ok []
  | uri :: rest =>
    match parseHost uri with
    | none => .error ("Invalid redirect_uri: " ++ uri)
    | some h =>
      if hostMatchesAllowlist allowlist (jsToLower h) then
        (checkUris parseHost allowlist rest).map (fun tail => uri :: tail)
      else
        .error ("The redirect URI " ++ uri ++
          " is not in our allowlist. Please raise a GitHub issue to have it added: https://github.com/polaralias/google-workspace-mcp")

/-- The `POST /register` handler.  `body` is `req.body.redirect_uris`
(`none` when it is not an array); `randHex` is the output of
`crypto.randomBytes(16).toString('hex')`.  Returns the response and the
resulting database. -/
def registerHandler (parseHost : String → Option String) (allowcfg : String)
    (randHex : String) (body : Option (List String)) (db : Db) :
    RegisterResult × Db :=
  match body with
  | none => (.badRequest "redirect_uris must be a non-empty array", db)
  | some redirectUris =>
    if redirectUris.isEmpty then
      (.badRequest "redirect_uris must be a non-empty array", db)
    else
      let allowlist := getAllowlist allowcfg
      if allowlist.isEmpty then
        (.badRequest "Redirect allowlist is not configured", db)
      else
        match checkUris parseHost allowlist redirectUris with
        | .error msg => (.badRequest msg, db)
        | .ok normalized =>
          let clientId := "client_" ++ randHex
          (.created clientId,
           { db with clients := db.clients ++ [⟨clientId, normalized⟩] })

/-! ## Token exchange (`src/src/server.ts` lines 687–779) -/

/-- A JSON response body of `POST /token`. -/
inductive HttpBody where
  | err (msg : String)
  | token (accessToken : String) (tokenType : String) (expiresIn : Nat)
deriving DecidableEq, Repr

/-- An HTTP response (status code and JSON body). -/
structure HttpResp where
  status : Nat
  body : HttpBody
deriving DecidableEq, Repr

/-- The request body of `POST /token`. -/
structure TokenReq where
  code : String
  clientId : String
  redirectUri : String
  codeVerifier : String
deriving DecidableEq, Repr

/-- Whether a response body is the success shape. -/
def isTokenResp : HttpBody → Bool
  | .token _ _ _ => true
  | _ => false

/-- The `POST /token` handler of `src/src/server.ts`.  `sha256Hex` and
`sha256Bytes` stand for the SHA-256 primitives; `tokenTtl` is
`config.TOKEN_TTL_SECONDS`; `now` is `Date.now()` in milliseconds;
`freshToken` and `sessionId` are the generated random token and UUID.
Mirrors the source exactly: the transaction that finds the non-expired
auth code also deletes it and inserts the session row, and only then are
the connection-ownership and PKCE checks performed. -/
def tokenExchange (parseHost : String → Option String) (allowcfg : String)
    (sha256Hex : String → String) (sha256Bytes : String → List Byte)
    (tokenTtl : Nat) (now : Nat) (freshToken sessionId : String)
    (req : TokenReq) (db : Db) : HttpResp × Db :=
  if req.code == "" || req.clientId == "" || req.redirectUri == "" ||
      req.codeVerifier == "" then
    (⟨400, .err "Missing required parameters"⟩, db)
  else
    match db.clients.find? (fun c => c.clientId == req.clientId) with
    | none => (⟨400, .err "Invalid client_id"⟩, db)
    | some clientRow =>
      if !(isRedirectAllowed parseHost allowcfg req.redirectUri clientRow.redirectUris) then
        (⟨400, .err ("The redirect URI " ++ req.redirectUri ++
          " is not allowed. Please raise a GitHub issue: https://github.com/polaralias/google-workspace-mcp")⟩, db)
      else
        let codeHash := sha256Hex req.code
        let tokenHash := sha256Hex freshToken
        let expiresAt := now + tokenTtl * 1000
        match db.authCodes.find? (fun r => r.codeHash == codeHash && now < r.expiresAt) with
        | none => (⟨400, .err "Invalid or expired code"⟩, db)
        | some row =>
          let db2 : Db :=
            { db with
              authCodes := db.authCodes.filter
                (fun r => !(r.codeHash == codeHash && now < r.expiresAt)),
              sessions := db.sessions ++
                [⟨sessionId, tokenHash, row.connectionId, expiresAt, now⟩] }
          match db2.connections.find? (fun c => c.id == row.connectionId) with
          | none => (⟨400, .err "Invalid client for code"⟩, db2)
          | some conn =>
            if conn.clientId != req.clientId then
              (⟨400, .err "Invalid client for code"⟩, db2)
            else if !(verifyPkce sha256Bytes row.codeChallengeMethod
                row.codeChallenge req.codeVerifier) then
              (⟨400, .err "Invalid code_verifier"⟩, db2)
            else
              (⟨200, .token freshToken "Bearer" tokenTtl⟩, db2)

/-! ## API keys (`src/src/server.ts` authMiddleware lines 881–904, CLI `revokeApiKey`) -/

/-- An `api_keys` row. -/
structure ApiKeyRow where
  id : String
  userConfigId : String
  keyHash : String
  revokedAt : Option Nat
deriving DecidableEq, Repr

/-- A `user_configs` row. -/
structure UserConfigRow where
  id : String
  configEnc : String
deriving DecidableEq, Repr

/-- The tables of the static-key path. -/
structure KeyDb where
  apiKeys : List ApiKeyRow
  userConfigs : List UserConfigRow
deriving DecidableEq, Repr

/-- The API-key branch of `authMiddleware` (`src/src/server.ts` lines
882–904): hash the presented token, select the `api_keys` row joined with
its `user_configs` row **filtering on `key_hash` only**, and return the
encrypted config for decryption.  `none` is the unauthenticated (`null`)
outcome. -/
def resolveApiKey (sha256Hex : String → String) (db : KeyDb) (token : String) :
    Option String :=
  let tokenHash := sha256Hex token
  match db.apiKeys.find? (fun k => k.keyHash == tokenHash) with
  | none => none
  | some k => (db.userConfigs.find? (fun u => u.id == k.userConfigId)).map (·.configEnc)

/-- `revokeApiKey(id)` from the administrative CLI:
`UPDATE api_keys SET revoked_at = now WHERE id = ? AND revoked_at IS NULL`. -/
def revokeApiKey (db : KeyDb) (id : String) (now : Nat) : KeyDb :=
  { db with
    apiKeys := db.apiKeys.map
      (fun k =>
        if k.id == id && k.revokedAt == none then { k with revokedAt := some now }
        else k) }

/-! ## Secret cipher (`src/src/crypto.js`, `src/src/env.ts`) -/

/-- Value of one hex digit character (`[0-9a-fA-F]`), as in
`Buffer.from(_, 'hex')` and the `isHex64` regex. -/
def hexVal? (c : Char) : Option (Fin 16) :=
  if h : 48 ≤ c.toNat ∧ c.toNat ≤ 57 then some ⟨c.toNat - 48, by omega⟩
  else if h2 : 97 ≤ c.toNat ∧ c.toNat ≤ 102 then some ⟨c.toNat - 87, by omega⟩
  else if h3 : 65 ≤ c.toNat ∧ c.toNat ≤ 70 then some ⟨c.toNat - 55, by omega⟩
  else none

/-- `isHex64(value)`: the regex `^[0-9a-fA-F]{64}$`. -/
def isHex64 (s : String) : Bool :=
  s.toList.length == 64 && s.toList.all (fun c => (hexVal? c).isSome)

/-- The lower-case hex digits, as `Buffer.prototype.toString('hex')`. -/
def hexDigitChar (n : Fin 16) : Char :=
  "0123456789abcdef".toList.getD n.val '0'

/-- Hex encoding of one byte (two lower-case digits). -/
def byteToHexChars (b : Byte) : List Char :=
  [hexDigitChar ⟨b.val / 16, by omega⟩, hexDigitChar ⟨b.val % 16, by omega⟩]

/-- `Buffer.prototype.toString('hex')`. -/
def bytesToHex (bs : List Byte) : String :=
  String.mk (bs.flatMap byteToHexChars)

/-- `Buffer.from(string, 'hex')`: Node decodes full byte pairs until the
first character that is not a hex digit, never failing. -/
def hexLenient : List Char → List Byte
  | c1 :: c2 :: rest =>
    match hexVal? c1, hexVal? c2 with
    | some h, some l => ⟨16 * h.val + l.val, by omega⟩ :: hexLenient rest
    | _, _ => []
  | _ => []

/-- `getDerivedKey(masterKey)` from `env.ts`: a 64-hex-character master
key is used directly as raw key bytes, anything else is hashed once with
SHA-256 (`sha256Str` stands for the platform digest of the UTF-8 string). -/
def getDerivedKey (sha256Str : String → List Byte) (masterKey : String) : List Byte :=
  if isHex64 masterKey then hexLenient masterKey.toList else sha256Str masterKey

/-- `encryptJson(masterKey, payload)` from `crypto.js`.  `aesEnc` stands
for AES-256-GCM encryption, returning `(ciphertext, authTag)` for a key,
an IV and a plaintext; `jsonStringify` for the UTF-8 bytes of
`JSON.stringify`; `iv` for the 12 random bytes drawn per call.  The token
is `iv:authTag:ciphertext`, each hex-encoded. -/
def encryptJson {α : Type} (aesEnc : List Byte → List Byte → List Byte → List Byte × List Byte)
    (jsonStringify : α → List Byte) (sha256Str : String → List Byte)
    (masterKey : String) (iv : List Byte) (payload : α) : String :=
  let key := getDerivedKey sha256Str masterKey
  let plaintext := jsonStringify payload
  let enc := aesEnc key iv plaintext
  bytesToHex iv ++ ":" ++ bytesToHex enc.2 ++ ":" ++ bytesToHex enc.1

/-- The failure classes of `decryptJson`: the explicit
`Invalid encrypted payload` throw, the AEAD authentication throw from
`decipher.final()`, and a `JSON.parse` failure. -/
inductive DecryptErr where
  | invalidPayload
  | authFailed
  | badJson
deriving DecidableEq, Repr

/-- `decryptJson(masterKey, encoded)` from `crypto.js`.  The destructuring
`const [ivHex, tagHex, cipherHex] = encoded.split(':')` keeps only the
first three segments; missing segments are `undefined` (modelled by the
`""` default, which is equally falsy).  `aesDec` stands for AES-256-GCM
decryption (key, iv, ciphertext, authTag), `none` modelling the tag-check
throw; `jsonParse` for `JSON.parse` on the recovered UTF-8 bytes. -/
def decryptJson {α : Type} (aesDec : List Byte → List Byte → List Byte → List Byte → Option (List Byte))
    (jsonParse : List Byte → Option α) (sha256Str : String → List Byte)
    (masterKey : String) (encoded : String) : Except DecryptErr α :=
  let key := getDerivedKey sha256Str masterKey
  let parts := jsSplit ':' encoded
  let ivHex := parts.getD 0 ""
  let tagHex := parts.getD 1 ""
  let cipherHex := parts.getD 2 ""
  if ivHex == "" || tagHex == "" || cipherHex == "" then .error .invalidPayload
  else
    match aesDec key (hexLenient ivHex.toList) (hexLenient cipherHex.toList)
        (hexLenient tagHex.toList) with
    | none => .error .authFailed
    | some plaintext =>
      match jsonParse plaintext with
      | none => .error .badJson
      | some v => .ok v

/-- Whether one of the first three colon-separated segments of a token is
missing or empty — exactly the condition of the
`Invalid encrypted payload` throw in `decryptJson`. -/
def firstThreeSegmentsBad (encoded : String) : Bool :=
  let parts := jsSplit ':' encoded
  parts.getD 0 "" == "" || parts.getD 1 "" == "" || parts.getD 2 "" == ""

/-! ## Concrete instantiations for examples

The platform primitives are parameters of the embedded functions; the
following small executable instantiations are used to evaluate the models
on concrete inputs (counterexamples and witnesses).  They satisfy exactly
the contracts the theorems assume of the real primitives. -/

/-- A stand-in for `sha256Hex` in concrete scenarios (any injective
string function exercises the same control flow). -/
def demoHash (s : String) : String := "h_" ++ s

/-- A stand-in for the byte-level SHA-256 digest (unused by scenarios
that take the `plain` PKCE branch). -/
def demoSha256B (_ : String) : List Byte := []

/-- A database holding two registered clients, one connection owned by
client `c1`, and one unexpired auth code (PKCE method `plain`, challenge
`ver1`, expiry 1000 ms) for that connection. -/
def dbDemo : Db :=
  { clients := [⟨"c1", ["https://app.good.com/cb"]⟩,
                ⟨"c2", ["https://app.good.com/cb2"]⟩],
    connections := [⟨"conn1", "c1"⟩],
    authCodes := [⟨"h_code1", "conn1", "ver1", "plain", 1000⟩],
    sessions := [] }

/-- A key database holding one unrevoked API key whose hash matches the
raw key `rawkey` under `demoHash`, bound to one encrypted user config. -/
def demoKeyDb : KeyDb :=
  { apiKeys := [⟨"k1", "u1", "h_rawkey", none⟩],
    userConfigs := [⟨"u1", "enc1"⟩] }

/-- A toy AEAD encryption: the ciphertext is the plaintext and the tag is
the single byte 0 (it satisfies the roundtrip, length and nonempty-tag
contracts assumed of AES-256-GCM). -/
def demoAesEnc (_key _iv : List Byte) (plaintext : List Byte) :
    List Byte × List Byte :=
  (plaintext, [0])

/-- The toy AEAD decryption matching `demoAesEnc`: accepts exactly the
tag byte 0. -/
def demoAesDec (_key _iv : List Byte) (ciphertext tag : List Byte) :
    Option (List Byte) :=
  if tag == [(0 : Byte)] then some ciphertext else none

/-- An AEAD decryption that rejects everything — the behaviour of
AES-256-GCM when the key is wrong or the ciphertext/tag corrupted. -/
def demoAesRejectDec (_key _iv _ciphertext _tag : List Byte) :
    Option (List Byte) := none

/-- A toy `JSON.stringify` for Boolean payloads. -/
def demoJsonStringify (b : Bool) : List Byte := [if b then 1 else 0]

/-- The toy `JSON.parse` matching `demoJsonStringify`. -/
def demoJsonParse (bs : List Byte) : Option Bool :=
  if bs == [(1 : Byte)] then some true
  else if bs == [(0 : Byte)] then some false
  else none

/-- A stand-in for the string-level SHA-256 digest used by
`getDerivedKey` on passphrase master keys. -/
def demoSha256Str (_ : String) : List Byte := List.replicate 32 0

/-- A 12-byte IV as drawn by `crypto.randomBytes(12)`. -/
def demoIv : List Byte := List.replicate 12 7

/-! ## Theorems -/

/-- The error-pushing fold of `validateConfig` collects exactly the
per-field errors, in schema order. -/
theorem foldl_pushErrors_eq_filterMap (payload : List (String × Json))
    (fields : List ConfigField) (acc : List String) :
    fields.foldl
      (fun acc f =>
        match fieldError payload f with
        | some e => acc ++ [e]
        | none => acc) acc
      = acc ++ fields.filterMap (fieldError payload) := by
  induction fields generalizing acc with
  | nil => simp
  | cons f fs ih =>
    simp only [List.foldl_cons, List.filterMap_cons]
    cases h : fieldError payload f with
    | none => simp [h, ih]
    | some e => simp [h, ih]

/-- Claim C9: `validateConfig` checks required-field presence and
per-format type conformance (csv ⇒ array, json ⇒ object, checkbox ⇒
boolean, unformatted text ⇒ string), accumulating one error per violating
field across all fields rather than stopping at the first; under the
default schema, `{teamId:"t1"}` is invalid with error `apiKey is
required` and `{apiKey:"s", teamId:"t1", scopes:["x"]}` is valid. -/
theorem c9_validateConfig_accumulates :
    (∀ (schema : ConfigSchema) (payload : List (String × Json)),
        (validateConfig schema payload).errors
            = schema.fields.filterMap (fieldError payload)
        ∧ ((validateConfig schema payload).valid = true
            ↔ (validateConfig schema payload).errors = []))
    ∧ validateConfig getSchema [("teamId", Json.str "t1")]
        = ⟨false, ["apiKey is required"]⟩
    ∧ validateConfig getSchema
        [("apiKey", Json.str "s"), ("teamId", Json.str "t1"),
         ("scopes", Json.arr [Json.str "x"])]
        = ⟨true, []⟩
    ∧ validateConfig
        ⟨[⟨"a", "A", "text", false, "", false, some "csv"⟩,
          ⟨"b", "B", "checkbox", false, "", false, none⟩,
          ⟨"c", "C", "text", false, "", false, some "json"⟩,
          ⟨"d", "D", "text", false, "", false, none⟩]⟩
        [("a", Json.str "x"), ("b", Json.str "y"), ("c", Json.num 3),
         ("d", Json.num 4)]
        = ⟨false, ["a must be a list", "b must be a boolean", "c must be JSON",
                   "d must be a string"]⟩ := by
  refine ⟨fun schema payload => ?_, by decide, by decide, by decide⟩
  have h := foldl_pushErrors_eq_filterMap payload schema.fields []
  constructor
  · simpa [validateConfig] using h
  · simp [validateConfig, List.length_eq_zero]

/-- Claim C5: `isRedirectAllowed(uri, clientRedirects)` is true iff the
URI is a literal member of the client's registered set, the operator
allowlist is non-empty, and the URI parses to a hostname that equals some
allowlist domain or ends with `.` followed by it; in particular a
registered client redirect whose hostname matches no allowlist domain is
rejected. -/
theorem c5_isRedirectAllowed_iff :
    (∀ (parseHost : String → Option String) (allowcfg uri : String)
        (clientRedirects : List String),
        isRedirectAllowed parseHost allowcfg uri clientRedirects = true
          ↔ redirectAllowedSpec parseHost allowcfg uri clientRedirects)
    ∧ isRedirectAllowed urlHostnameModel "good.com" "https://evil.example/cb"
        ["https://evil.example/cb"] = false := by
  refine ⟨fun parseHost allowcfg uri clientRedirects => ?_, by decide⟩
  unfold isRedirectAllowed redirectAllowedSpec hostMatchesAllowlist
  by_cases hmem : clientRedirects.contains uri
  · by_cases hempty : (getAllowlist allowcfg).isEmpty
    · simp [hmem, hempty, List.isEmpty_iff.mp hempty]
    · cases hp : parseHost uri with
      | none =>
        simp [hmem, hempty, hp]
      | some h =>
        simp only [hmem, hempty, hp, Bool.not_true, Bool.false_eq_true, if_false]
        constructor
        · intro hany
          refine ⟨by simpa using hmem,
            by simpa [List.isEmpty_iff] using hempty, h, rfl, ?_⟩
          rcases List.any_eq_true.mp hany with ⟨d, hd, hmatch⟩
          exact ⟨d, hd, by simpa using hmatch⟩
        · rintro ⟨-, -, h2, hh2, d, hd, hmatch⟩
          obtain rfl : h = h2 := by simpa [hp] using hh2
          exact List.any_eq_true.mpr ⟨d, hd, by simpa using hmatch⟩
  · simp only [hmem, Bool.not_false, if_true]
    constructor
    · intro hfalse; cases hfalse
    · rintro ⟨hin, -⟩
      exact absurd (by simpa using hin : clientRedirects.contains uri = true)
        (by simpa using hmem)

/-- Claim C1 (code bug): after the administrative `revokeApiKey` sets
`revoked_at` on an `api_keys` row, the bearer-credential resolution path
of `authMiddleware` still resolves the raw key — the lookup filters on
`key_hash` only, with no `revoked_at` condition, so the revoked key does
not resolve to `null` as the specification requires. -/
theorem c1_revoked_apiKey_still_resolves :
    ((revokeApiKey demoKeyDb "k1" 42).apiKeys.find?
        (fun k => k.id == "k1")).map (·.revokedAt) = some (some 42)
    ∧ resolveApiKey demoHash (revokeApiKey demoKeyDb "k1" 42) "rawkey"
        = some "enc1"
    ∧ resolveApiKey demoHash (revokeApiKey demoKeyDb "k1" 42) "rawkey" ≠ none := by
  decide

/-- Claim C3 (code bug): a `POST /token` request that passes the client
and redirect checks and finds a valid code, but fails PKCE verification,
receives a 400 error — yet a new Session row has been persisted by the
transaction, which inserts the session before the ownership and PKCE
checks run. -/
theorem c3_session_persisted_despite_pkce_failure :
    (tokenExchange urlHostnameModel "good.com" demoHash demoSha256B 3600 500
        "tok1" "sess1" ⟨"code1", "c1", "https://app.good.com/cb", "wrong"⟩
        dbDemo).1
      = ⟨400, .err "Invalid code_verifier"⟩
    ∧ (tokenExchange urlHostnameModel "good.com" demoHash demoSha256B 3600 500
        "tok1" "sess1" ⟨"code1", "c1", "https://app.good.com/cb", "wrong"⟩
        dbDemo).2.sessions
      = [⟨"sess1", "h_tok1", "conn1", 500 + 3600 * 1000, 500⟩]
    ∧ dbDemo.sessions = [] := by
  decide

/-- Every result of the `/token` handler is either a 400 error or the
200 success response carrying the freshly minted bearer token. -/
theorem tokenExchange_status_shape (parseHost : String → Option String)
    (allowcfg : String) (sha256Hex : String → String)
    (sha256Bytes : String → List Byte) (tokenTtl now : Nat)
    (freshToken sessionId : String) (req : TokenReq) (db : Db) :
    ((tokenExchange parseHost allowcfg sha256Hex sha256Bytes tokenTtl now
        freshToken sessionId req db).1.status = 400
      ∧ ∃ msg, (tokenExchange parseHost allowcfg sha256Hex sha256Bytes tokenTtl now
        freshToken sessionId req db).1.body = .err msg)
    ∨ ((tokenExchange parseHost allowcfg sha256Hex sha256Bytes tokenTtl now
        freshToken sessionId req db).1.status = 200
      ∧ (tokenExchange parseHost allowcfg sha256Hex sha256Bytes tokenTtl now
        freshToken sessionId req db).1.body
          = .token freshToken "Bearer" tokenTtl) := by
  unfold tokenExchange
  dsimp only
  repeat' split
  all_goals first
    | exact Or.inl ⟨rfl, _, rfl⟩
    | exact Or.inr ⟨rfl, rfl⟩

/-- Claim C4 (counterexample): three `POST /token` requests that fail for
different internal reasons — unknown code, code owned by a different
client, PKCE verifier mismatch — receive three pairwise distinct response
bodies, so the responses do reveal which check failed. -/
theorem c4_distinct_failure_responses :
    (tokenExchange urlHostnameModel "good.com" demoHash demoSha256B 3600 500
        "tok1" "sess1" ⟨"nocode", "c1", "https://app.good.com/cb", "ver1"⟩
        dbDemo).1.body = .err "Invalid or expired code"
    ∧ (tokenExchange urlHostnameModel "good.com" demoHash demoSha256B 3600 500
        "tok1" "sess1" ⟨"code1", "c2", "https://app.good.com/cb2", "ver1"⟩
        dbDemo).1.body = .err "Invalid client for code"
    ∧ (tokenExchange urlHostnameModel "good.com" demoHash demoSha256B 3600 500
        "tok1" "sess1" ⟨"code1", "c1", "https://app.good.com/cb", "wrong"⟩
        dbDemo).1.body = .err "Invalid code_verifier"
    ∧ HttpBody.err "Invalid or expired code" ≠ .err "Invalid client for code"
    ∧ HttpBody.err "Invalid or expired code" ≠ .err "Invalid code_verifier"
    ∧ HttpBody.err "Invalid client for code" ≠ .err "Invalid code_verifier" := by
  decide

/-- Claim C4 (amended): every failure path of `POST /token` returns the
same HTTP status 400, but the JSON error bodies differ by failure cause,
so the failing check is revealed by the response body. -/
theorem c4_failures_all_status_400 (parseHost : String → Option String)
    (allowcfg : String) (sha256Hex : String → String)
    (sha256Bytes : String → List Byte) (tokenTtl now : Nat)
    (freshToken sessionId : String) (req : TokenReq) (db : Db)
    (hfail : isTokenResp (tokenExchange parseHost allowcfg sha256Hex sha256Bytes
        tokenTtl now freshToken sessionId req db).1.body = false) :
    (tokenExchange parseHost allowcfg sha256Hex sha256Bytes tokenTtl now
        freshToken sessionId req db).1.status = 400 := by
  rcases tokenExchange_status_shape parseHost allowcfg sha256Hex sha256Bytes
      tokenTtl now freshToken sessionId req db with ⟨h400, -⟩ | ⟨-, hbody⟩
  · exact h400
  · rw [hbody] at hfail
    simp [isTokenResp] at hfail

/-- Witness for `c4_failures_all_status_400`: the failing PKCE request of
the counterexample indeed receives status 400. -/
theorem c4_failures_all_status_400_witness :
    (tokenExchange urlHostnameModel "good.com" demoHash demoSha256B 3600 500
        "tok1" "sess1" ⟨"code1", "c1", "https://app.good.com/cb", "wrong"⟩
        dbDemo).1.status = 400 :=
  c4_failures_all_status_400 urlHostnameModel "good.com" demoHash demoSha256B
    3600 500 "tok1" "sess1" ⟨"code1", "c1", "https://app.good.com/cb", "wrong"⟩
    dbDemo (by decide)

/-- Inversion of a successful `/token` exchange: a matching non-expired
auth-code row was found, and the resulting database has all rows with
that hash and a future expiry deleted (the one-time-use delete), with the
clients table untouched. -/
theorem tokenExchange_success_inv (parseHost : String → Option String)
    (allowcfg : String) (sha256Hex : String → String)
    (sha256Bytes : String → List Byte) (tokenTtl now : Nat)
    (freshToken sessionId : String) (req : TokenReq) (db : Db)
    (hsucc : isTokenResp (tokenExchange parseHost allowcfg sha256Hex sha256Bytes
        tokenTtl now freshToken sessionId req db).1.body = true) :
    db.authCodes.find?
        (fun r => r.codeHash == sha256Hex req.code && now < r.expiresAt) ≠ none
    ∧ (tokenExchange parseHost allowcfg sha256Hex sha256Bytes tokenTtl now
        freshToken sessionId req db).2.authCodes
      = db.authCodes.filter
          (fun r => !(r.codeHash == sha256Hex req.code && now < r.expiresAt))
    ∧ (tokenExchange parseHost allowcfg sha256Hex sha256Bytes tokenTtl now
        freshToken sessionId req db).2.clients = db.clients := by
  unfold tokenExchange at hsucc ⊢
  dsimp only at hsucc ⊢
  repeat' split at hsucc
  all_goals simp_all [isTokenResp]

/-- If every auth-code row carrying a given hash has already expired,
the `/token` lookup for that hash finds nothing. -/
theorem find_none_of_all_expired (hash : String) (now now2 : Nat)
    (hle : now ≤ now2) (codes : List AuthCodeRow)
    (hall : ∀ r ∈ codes, r.codeHash = hash → r.expiresAt ≤ now) :
    codes.find? (fun r => r.codeHash == hash && now2 < r.expiresAt) = none := by
  rw [List.find?_eq_none]
  intro r hr
  by_cases hh : r.codeHash = hash
  · have := hall r hr hh
    simp [hh]
    omega
  · simp [hh]

/-- After the one-time-use delete, every remaining row with the consumed
hash is expired (relative to the deletion time). -/
theorem filter_all_expired (hash : String) (now : Nat) (codes : List AuthCodeRow) :
    ∀ r ∈ codes.filter (fun r => !(r.codeHash == hash && now < r.expiresAt)),
      r.codeHash = hash → r.expiresAt ≤ now := by
  intro r hr hh
  have hkeep := (List.mem_filter.mp hr).2
  simp [hh] at hkeep
  omega

/-- When the request parameters are present, the client exists, the
redirect is allowed, but no matching non-expired auth code is found,
`/token` answers `Invalid or expired code` and leaves the database
unchanged. -/
theorem tokenExchange_invalid_code_of_no_row (parseHost : String → Option String)
    (allowcfg : String) (sha256Hex : String → String)
    (sha256Bytes : String → List Byte) (tokenTtl now : Nat)
    (freshToken sessionId : String) (req : TokenReq) (db : Db)
    (clientRow : ClientRow)
    (hpres : (req.code == "" || req.clientId == "" || req.redirectUri == ""
        || req.codeVerifier == "") = false)
    (hclient : db.clients.find? (fun c => c.clientId == req.clientId) = some clientRow)
    (hredir : isRedirectAllowed parseHost allowcfg req.redirectUri
        clientRow.redirectUris = true)
    (hnone : db.authCodes.find?
        (fun r => r.codeHash == sha256Hex req.code && now < r.expiresAt) = none) :
    tokenExchange parseHost allowcfg sha256Hex sha256Bytes tokenTtl now
        freshToken sessionId req db
      = (⟨400, .err "Invalid or expired code"⟩, db) := by
  unfold tokenExchange
  dsimp only
  simp [hpres, hclient, hredir, hnone]

/-- Claim C2: an issued auth code can be redeemed successfully at most
once.  The validity check and the deletion of the row are a single step
of the model (the transaction in the source): after a successful
redemption, a later `POST /token` presenting the same code never succeeds
(first conjunct), and when it passes the client and redirect checks it
receives precisely the `Invalid or expired code` error (second conjunct);
a code whose rows have all expired is likewise rejected with that error
(third conjunct). -/
theorem c2_authCode_single_use (parseHost : String → Option String)
    (allowcfg : String) (sha256Hex : String → String)
    (sha256Bytes : String → List Byte) (tokenTtl : Nat) :
    (∀ (req req2 : TokenReq) (db : Db) (now now2 : Nat)
        (tok tok2 sid sid2 : String),
      isTokenResp (tokenExchange parseHost allowcfg sha256Hex sha256Bytes
          tokenTtl now tok sid req db).1.body = true →
      req2.code = req.code → now ≤ now2 →
      isTokenResp (tokenExchange parseHost allowcfg sha256Hex sha256Bytes
          tokenTtl now2 tok2 sid2 req2
          (tokenExchange parseHost allowcfg sha256Hex sha256Bytes
            tokenTtl now tok sid req db).2).1.body = false)
    ∧ (∀ (req req2 : TokenReq) (db : Db) (now now2 : Nat)
        (tok tok2 sid sid2 : String) (c2row : ClientRow),
      isTokenResp (tokenExchange parseHost allowcfg sha256Hex sha256Bytes
          tokenTtl now tok sid req db).1.body = true →
      req2.code = req.code → now ≤ now2 →
      (req2.code == "" || req2.clientId == "" || req2.redirectUri == ""
          || req2.codeVerifier == "") = false →
      (tokenExchange parseHost allowcfg sha256Hex sha256Bytes
          tokenTtl now tok sid req db).2.clients.find?
          (fun c => c.clientId == req2.clientId) = some c2row →
      isRedirectAllowed parseHost allowcfg req2.redirectUri
          c2row.redirectUris = true →
      tokenExchange parseHost allowcfg sha256Hex sha256Bytes tokenTtl now2
          tok2 sid2 req2
          (tokenExchange parseHost allowcfg sha256Hex sha256Bytes
            tokenTtl now tok sid req db).2
        = (⟨400, .err "Invalid or expired code"⟩,
           (tokenExchange parseHost allowcfg sha256Hex sha256Bytes
             tokenTtl now tok sid req db).2))
    ∧ (∀ (req : TokenReq) (db : Db) (now : Nat) (tok sid : String),
      (∀ r ∈ db.authCodes, r.codeHash = sha256Hex req.code → r.expiresAt ≤ now) →
      isTokenResp (tokenExchange parseHost allowcfg sha256Hex sha256Bytes
          tokenTtl now tok sid req db).1.body = false) := by
  refine ⟨?_, ?_, ?_⟩
  · intro req req2 db now now2 tok tok2 sid sid2 hsucc hcode hle
    obtain ⟨-, hpost, -⟩ := tokenExchange_success_inv parseHost allowcfg
      sha256Hex sha256Bytes tokenTtl now tok sid req db hsucc
    by_contra hne
    have hsucc2 : isTokenResp (tokenExchange parseHost allowcfg sha256Hex
        sha256Bytes tokenTtl now2 tok2 sid2 req2
        (tokenExchange parseHost allowcfg sha256Hex sha256Bytes
          tokenTtl now tok sid req db).2).1.body = true := by
      revert hne
      cases isTokenResp (tokenExchange parseHost allowcfg sha256Hex
          sha256Bytes tokenTtl now2 tok2 sid2 req2
          (tokenExchange parseHost allowcfg sha256Hex sha256Bytes
            tokenTtl now tok sid req db).2).1.body <;> simp
    obtain ⟨hne2, -, -⟩ := tokenExchange_success_inv parseHost allowcfg
      sha256Hex sha256Bytes tokenTtl now2 tok2 sid2 req2 _ hsucc2
    apply hne2
    rw [hpost, hcode]
    exact find_none_of_all_expired (sha256Hex req.code) now now2 hle _
      (filter_all_expired (sha256Hex req.code) now db.authCodes)
  · intro req req2 db now now2 tok tok2 sid sid2 c2row hsucc hcode hle
      hpres hclient hredir
    obtain ⟨-, hpost, -⟩ := tokenExchange_success_inv parseHost allowcfg
      sha256Hex sha256Bytes tokenTtl now tok sid req db hsucc
    refine tokenExchange_invalid_code_of_no_row parseHost allowcfg sha256Hex
      sha256Bytes tokenTtl now2 tok2 sid2 req2 _ c2row hpres hclient hredir ?_
    rw [hpost, hcode]
    exact find_none_of_all_expired (sha256Hex req.code) now now2 hle _
      (filter_all_expired (sha256Hex req.code) now db.authCodes)
  · intro req db now tok sid hall
    by_contra hne
    have hsucc : isTokenResp (tokenExchange parseHost allowcfg sha256Hex
        sha256Bytes tokenTtl now tok sid req db).1.body = true := by
      revert hne
      cases isTokenResp (tokenExchange parseHost allowcfg sha256Hex
          sha256Bytes tokenTtl now tok sid req db).1.body <;> simp
    obtain ⟨hne2, -, -⟩ := tokenExchange_success_inv parseHost allowcfg
      sha256Hex sha256Bytes tokenTtl now tok sid req db hsucc
    exact hne2 (find_none_of_all_expired (sha256Hex req.code) now now
      le_rfl db.authCodes hall)

/-- Witness for `c2_authCode_single_use`: in the demo database a first
redemption of `code1` succeeds and the identical second redemption
receives `Invalid or expired code`. -/
theorem c2_authCode_single_use_witness :
    tokenExchange urlHostnameModel "good.com" demoHash demoSha256B 3600 600
        "tok2" "sess2" ⟨"code1", "c1", "https://app.good.com/cb", "ver1"⟩
        (tokenExchange urlHostnameModel "good.com" demoHash demoSha256B 3600 500
          "tok1" "sess1" ⟨"code1", "c1", "https://app.good.com/cb", "ver1"⟩
          dbDemo).2
      = (⟨400, .err "Invalid or expired code"⟩,
         (tokenExchange urlHostnameModel "good.com" demoHash demoSha256B 3600 500
           "tok1" "sess1" ⟨"code1", "c1", "https://app.good.com/cb", "ver1"⟩
           dbDemo).2) :=
  (c2_authCode_single_use urlHostnameModel "good.com" demoHash demoSha256B
      3600).2.1
    ⟨"code1", "c1", "https://app.good.com/cb", "ver1"⟩
    ⟨"code1", "c1", "https://app.good.com/cb", "ver1"⟩
    dbDemo 500 600 "tok1" "tok2" "sess1" "sess2"
    ⟨"c1", ["https://app.good.com/cb"]⟩
    (by decide) rfl (by omega) (by decide) (by decide) (by decide)

/-- After the `/token` transaction has found and consumed a matching
non-expired auth-code row, the resulting database carries the filtered
auth-code table (and unchanged clients), whatever the later checks do. -/
theorem tokenExchange_row_found_post (parseHost : String → Option String)
    (allowcfg : String) (sha256Hex : String → String)
    (sha256Bytes : String → List Byte) (tokenTtl now : Nat)
    (freshToken sessionId : String) (req : TokenReq) (db : Db)
    (clientRow : ClientRow) (row : AuthCodeRow)
    (hpres : (req.code == "" || req.clientId == "" || req.redirectUri == ""
        || req.codeVerifier == "") = false)
    (hclient : db.clients.find? (fun c => c.clientId == req.clientId) = some clientRow)
    (hredir : isRedirectAllowed parseHost allowcfg req.redirectUri
        clientRow.redirectUris = true)
    (hrow : db.authCodes.find?
        (fun r => r.codeHash == sha256Hex req.code && now < r.expiresAt) = some row) :
    (tokenExchange parseHost allowcfg sha256Hex sha256Bytes tokenTtl now
        freshToken sessionId req db).2.authCodes
      = db.authCodes.filter
          (fun r => !(r.codeHash == sha256Hex req.code && now < r.expiresAt))
    ∧ (tokenExchange parseHost allowcfg sha256Hex sha256Bytes tokenTtl now
        freshToken sessionId req db).2.clients = db.clients := by
  unfold tokenExchange
  dsimp only
  simp only [hpres, hclient, hredir, hrow, Bool.not_true, Bool.false_eq_true,
    if_false]
  repeat' split
  all_goals exact ⟨rfl, rfl⟩

/-- Claim C10: a `/token` request that passes the client and redirect
checks and finds a matching non-expired auth code consumes that code even
when a later check of the same request fails (connection owned by another
client, or PKCE mismatch): the request is not successful, the code rows
are deleted, and a subsequent request with the same code — even with the
correct verifier — receives `Invalid or expired code`. -/
theorem c10_failed_attempt_consumes_code (parseHost : String → Option String)
    (allowcfg : String) (sha256Hex : String → String)
    (sha256Bytes : String → List Byte) (tokenTtl now : Nat)
    (freshToken sessionId : String) (req : TokenReq) (db : Db)
    (clientRow : ClientRow) (row : AuthCodeRow)
    (hpres : (req.code == "" || req.clientId == "" || req.redirectUri == ""
        || req.codeVerifier == "") = false)
    (hclient : db.clients.find? (fun c => c.clientId == req.clientId) = some clientRow)
    (hredir : isRedirectAllowed parseHost allowcfg req.redirectUri
        clientRow.redirectUris = true)
    (hrow : db.authCodes.find?
        (fun r => r.codeHash == sha256Hex req.code && now < r.expiresAt) = some row)
    (hlater : db.connections.find? (fun x => x.id == row.connectionId) = none
      ∨ ∃ conn, db.connections.find? (fun x => x.id == row.connectionId) = some conn
          ∧ (conn.clientId ≠ req.clientId
            ∨ verifyPkce sha256Bytes row.codeChallengeMethod row.codeChallenge
                req.codeVerifier = false)) :
    isTokenResp (tokenExchange parseHost allowcfg sha256Hex sha256Bytes tokenTtl
        now freshToken sessionId req db).1.body = false
    ∧ (tokenExchange parseHost allowcfg sha256Hex sha256Bytes tokenTtl now
        freshToken sessionId req db).2.authCodes
      = db.authCodes.filter
          (fun r => !(r.codeHash == sha256Hex req.code && now < r.expiresAt))
    ∧ (∀ (req2 : TokenReq) (now2 : Nat) (tok2 sid2 : String) (c2row : ClientRow),
        req2.code = req.code → now ≤ now2 →
        (req2.code == "" || req2.clientId == "" || req2.redirectUri == ""
            || req2.codeVerifier == "") = false →
        (tokenExchange parseHost allowcfg sha256Hex sha256Bytes tokenTtl now
            freshToken sessionId req db).2.clients.find?
            (fun c => c.clientId == req2.clientId) = some c2row →
        isRedirectAllowed parseHost allowcfg req2.redirectUri
            c2row.redirectUris = true →
        tokenExchange parseHost allowcfg sha256Hex sha256Bytes tokenTtl now2
            tok2 sid2 req2
            (tokenExchange parseHost allowcfg sha256Hex sha256Bytes tokenTtl now
              freshToken sessionId req db).2
          = (⟨400, .err "Invalid or expired code"⟩,
             (tokenExchange parseHost allowcfg sha256Hex sha256Bytes tokenTtl now
               freshToken sessionId req db).2)) := by
  obtain ⟨hpost, hclients⟩ := tokenExchange_row_found_post parseHost allowcfg
    sha256Hex sha256Bytes tokenTtl now freshToken sessionId req db clientRow row
    hpres hclient hredir hrow
  refine ⟨?_, hpost, ?_⟩
  · unfold tokenExchange
    dsimp only
    simp only [hpres, hclient, hredir, hrow, Bool.not_true, Bool.false_eq_true,
      if_false]
    rcases hlater with hconn | ⟨conn, hconn, hbad⟩
    · simp [hconn, isTokenResp]
    · rcases hbad with hneq | hpk
      · have hb : (conn.clientId != req.clientId) = true := bne_iff_ne.mpr hneq
        simp [hconn, hb, isTokenResp]
      · by_cases heq : conn.clientId = req.clientId
        · have hb : (conn.clientId != req.clientId) = false := by simp [heq]
          simp [hconn, hb, hpk, isTokenResp]
        · have hb : (conn.clientId != req.clientId) = true := bne_iff_ne.mpr heq
          simp [hconn, hb, isTokenResp]
  · intro req2 now2 tok2 sid2 c2row hcode hle hpres2 hclient2 hredir2
    refine tokenExchange_invalid_code_of_no_row parseHost allowcfg sha256Hex
      sha256Bytes tokenTtl now2 tok2 sid2 req2 _ c2row hpres2 hclient2 hredir2 ?_
    rw [hpost, hcode]
    exact find_none_of_all_expired (sha256Hex req.code) now now2 hle _
      (filter_all_expired (sha256Hex req.code) now db.authCodes)

/-- Witness for `c10_failed_attempt_consumes_code`: in the demo database
a redemption attempt with the wrong verifier consumes `code1`, and the
follow-up attempt with the correct verifier gets `Invalid or expired
code`. -/
theorem c10_failed_attempt_consumes_code_witness :
    tokenExchange urlHostnameModel "good.com" demoHash demoSha256B 3600 600
        "tok2" "sess2" ⟨"code1", "c1", "https://app.good.com/cb", "ver1"⟩
        (tokenExchange urlHostnameModel "good.com" demoHash demoSha256B 3600 500
          "tok1" "sess1" ⟨"code1", "c1", "https://app.good.com/cb", "wrong"⟩
          dbDemo).2
      = (⟨400, .err "Invalid or expired code"⟩,
         (tokenExchange urlHostnameModel "good.com" demoHash demoSha256B 3600 500
           "tok1" "sess1" ⟨"code1", "c1", "https://app.good.com/cb", "wrong"⟩
           dbDemo).2) :=
  (c10_failed_attempt_consumes_code urlHostnameModel "good.com" demoHash
      demoSha256B 3600 500 "tok1" "sess1"
      ⟨"code1", "c1", "https://app.good.com/cb", "wrong"⟩ dbDemo
      ⟨"c1", ["https://app.good.com/cb"]⟩
      ⟨"h_code1", "conn1", "ver1", "plain", 1000⟩
      (by decide) (by decide) (by decide) (by decide)
      (Or.inr ⟨⟨"conn1", "c1"⟩, by decide, Or.inr (by decide)⟩)).2.2
    ⟨"code1", "c1", "https://app.good.com/cb", "ver1"⟩ 600 "tok2" "sess2"
    ⟨"c1", ["https://app.good.com/cb"]⟩
    rfl (by omega) (by decide) (by decide) (by decide)

/-- If every submitted URI passes the allowlist check, the `/register`
loop collects the full list unchanged. -/
theorem checkUris_ok_of_all (parseHost : String → Option String)
    (allowlist : List String) (uris : List String)
    (hall : ∀ u ∈ uris, hostPasses parseHost allowlist u = true) :
    checkUris parseHost allowlist uris = .ok uris := by
  induction uris with
  | nil => rfl
  | cons u rest ih =>
    have hu := hall u (by simp)
    unfold hostPasses at hu
    unfold checkUris
    cases hp : parseHost u with
    | none => rw [hp] at hu; cases hu
    | some h =>
      rw [hp] at hu
      dsimp only at hu ⊢
      rw [if_pos hu, ih (fun v hv => hall v (by simp [hv]))]
      rfl

/-- If some submitted URI fails to parse or fails the allowlist check,
the `/register` loop aborts with an error. -/
theorem checkUris_error_of_fail (parseHost : String → Option String)
    (allowlist : List String) (uris : List String)
    (hbad : ∃ u ∈ uris, hostPasses parseHost allowlist u = false) :
    ∃ msg, checkUris parseHost allowlist uris = .error msg := by
  induction uris with
  | nil => simp at hbad
  | cons u rest ih =>
    by_cases hu : hostPasses parseHost allowlist u = true
    · have hrest : ∃ v ∈ rest, hostPasses parseHost allowlist v = false := by
        rcases hbad with ⟨v, hv, hvf⟩
        rcases List.mem_cons.mp hv with rfl | hv2
        · rw [hu] at hvf; cases hvf
        · exact ⟨v, hv2, hvf⟩
      obtain ⟨msg, hmsg⟩ := ih hrest
      unfold hostPasses at hu
      unfold checkUris
      cases hp : parseHost u with
      | none => exact ⟨"Invalid redirect_uri: " ++ u, rfl⟩
      | some h =>
        rw [hp] at hu
        dsimp only at hu ⊢
        rw [if_pos hu, hmsg]
        exact ⟨msg, rfl⟩
    · unfold checkUris
      unfold hostPasses at hu
      cases hp : parseHost u with
      | none => exact ⟨"Invalid redirect_uri: " ++ u, rfl⟩
      | some h =>
        rw [hp] at hu
        dsimp only at hu ⊢
        rw [if_neg hu]
        exact ⟨_, rfl⟩

/-- Claim C8: `POST /register` is fail-closed and all-or-nothing: an
empty `redirect_uris` list is rejected, an empty operator allowlist
rejects every request, any single URI failing to parse or failing the
allowlist match rejects the whole registration with no Client row
persisted, and when every URI passes, a fresh `client_`-prefixed id is
stored with the full URI set and returned. -/
theorem c8_register_fail_closed (parseHost : String → Option String)
    (allowcfg randHex : String) (db : Db) :
    (registerHandler parseHost allowcfg randHex (some []) db
        = (.badRequest "redirect_uris must be a non-empty array", db)
      ∧ registerHandler parseHost allowcfg randHex none db
        = (.badRequest "redirect_uris must be a non-empty array", db))
    ∧ (∀ uris, getAllowlist allowcfg = [] → uris ≠ [] →
        registerHandler parseHost allowcfg randHex (some uris) db
          = (.badRequest "Redirect allowlist is not configured", db))
    ∧ (∀ uris, (∃ u ∈ uris, hostPasses parseHost (getAllowlist allowcfg) u = false) →
        ∃ msg, registerHandler parseHost allowcfg randHex (some uris) db
          = (.badRequest msg, db))
    ∧ (∀ uris, uris ≠ [] → getAllowlist allowcfg ≠ [] →
        (∀ u ∈ uris, hostPasses parseHost (getAllowlist allowcfg) u = true) →
        registerHandler parseHost allowcfg randHex (some uris) db
          = (.created ("client_" ++ randHex),
             { db with clients := db.clients ++ [⟨"client_" ++ randHex, uris⟩] })) := by
  refine ⟨⟨rfl, rfl⟩, ?_, ?_, ?_⟩
  · intro uris hempty hne
    unfold registerHandler
    dsimp only
    rw [if_neg (by simpa [List.isEmpty_iff] using hne),
      if_pos (by simpa [List.isEmpty_iff] using hempty)]
  · intro uris hbad
    by_cases hne : uris = []
    · subst hne; simp at hbad
    · by_cases hempty : getAllowlist allowcfg = []
      · exact ⟨"Redirect allowlist is not configured", by
          unfold registerHandler
          dsimp only
          rw [if_neg (by simpa [List.isEmpty_iff] using hne),
            if_pos (by simpa [List.isEmpty_iff] using hempty)]⟩
      · obtain ⟨msg, hmsg⟩ := checkUris_error_of_fail parseHost
          (getAllowlist allowcfg) uris hbad
        refine ⟨msg, ?_⟩
        unfold registerHandler
        dsimp only
        rw [if_neg (by simpa [List.isEmpty_iff] using hne),
          if_neg (by simpa [List.isEmpty_iff] using hempty), hmsg]
  · intro uris hne hempty hall
    unfold registerHandler
    dsimp only
    rw [if_neg (by simpa [List.isEmpty_iff] using hne),
      if_neg (by simpa [List.isEmpty_iff] using hempty),
      checkUris_ok_of_all parseHost (getAllowlist allowcfg) uris hall]

/-- Witness for `c8_register_fail_closed`: with allowlist `good.com` the
registration of `["https://app.good.com/cb"]` stores and returns a fresh
prefixed client id, and an empty list is rejected. -/
theorem c8_register_fail_closed_witness :
    registerHandler urlHostnameModel "good.com" "ab12"
        (some ["https://app.good.com/cb"])
        ⟨[], [], [], []⟩
      = (.created "client_ab12",
         ⟨[⟨"client_ab12", ["https://app.good.com/cb"]⟩], [], [], []⟩) :=
  (c8_register_fail_closed urlHostnameModel "good.com" "ab12"
      ⟨[], [], [], []⟩).2.2.2
    ["https://app.good.com/cb"] (by decide) (by decide)
    (by intro u hu; fin_cases hu; decide)

/-- Decoding inverts the hex digit table. -/
theorem hexVal_hexDigitChar : ∀ n : Fin 16, hexVal? (hexDigitChar n) = some n := by
  decide

/-- Hex digits are never the colon separator. -/
theorem hexDigitChar_ne_colon : ∀ n : Fin 16, hexDigitChar n ≠ ':' := by
  decide

/-- Lenient hex decoding inverts hex encoding. -/
theorem hexLenient_flatMap (bs : List Byte) :
    hexLenient (bs.flatMap byteToHexChars) = bs := by
  induction bs with
  | nil => rfl
  | cons b rest ih =>
    show hexLenient (byteToHexChars b ++ rest.flatMap byteToHexChars) = b :: rest
    simp only [byteToHexChars, List.cons_append, List.nil_append]
    unfold hexLenient
    rw [hexVal_hexDigitChar, hexVal_hexDigitChar]
    dsimp only
    rw [ih]
    congr 1
    apply Fin.ext
    show 16 * (b.val / 16) + b.val % 16 = b.val
    omega

/-- The colon never occurs in a hex-encoded string. -/
theorem colon_not_mem_bytesToHex (bs : List Byte) :
    ':' ∉ bs.flatMap byteToHexChars := by
  intro h
  rcases List.mem_flatMap.mp h with ⟨b, -, hb⟩
  simp only [byteToHexChars, List.mem_cons, List.not_mem_nil] at hb
  rcases hb with h1 | h1 | h1
  · exact hexDigitChar_ne_colon _ h1.symm
  · exact hexDigitChar_ne_colon _ h1.symm
  · exact h1

/-- Splitting a separator-free list yields a single group. -/
theorem splitChar_not_mem (sep : Char) (l : List Char) (h : sep ∉ l) :
    splitChar sep l = [l] := by
  induction l with
  | nil => rfl
  | cons c rest ih =>
    have hc : (c == sep) = false := by
      simp only [beq_eq_false_iff_ne]
      rintro rfl
      exact h (by simp)
    unfold splitChar
    rw [hc, ih (fun hm => h (by simp [hm]))]
    simp

/-- Unfolding equation of `splitChar` on a cons cell. -/
theorem splitChar_cons (sep c : Char) (rest : List Char) :
    splitChar sep (c :: rest) =
      if c == sep then [] :: splitChar sep rest
      else
        match splitChar sep rest with
        | [] => [[c]]
        | g :: gs => (c :: g) :: gs := rfl

/-- Splitting peels off the leading separator-free group. -/
theorem splitChar_append (sep : Char) (a rest : List Char) (h : sep ∉ a) :
    splitChar sep (a ++ sep :: rest) = a :: splitChar sep rest := by
  induction a with
  | nil =>
    show splitChar sep (sep :: rest) = [] :: splitChar sep rest
    rw [splitChar_cons, if_pos (by simp)]
  | cons c as ih =>
    have hc : (c == sep) = false := by
      simp only [beq_eq_false_iff_ne]
      rintro rfl
      exact h (by simp)
    show splitChar sep (c :: (as ++ sep :: rest)) = (c :: as) :: splitChar sep rest
    rw [splitChar_cons, if_neg (by simp [hc]), ih (fun hm => h (by simp [hm]))]

/-- `split(':')` on an `iv:tag:ciphertext` token recovers the three
hex segments. -/
theorem jsSplit_token (ivb tagb ctb : List Byte) :
    jsSplit ':' (bytesToHex ivb ++ ":" ++ bytesToHex tagb ++ ":" ++ bytesToHex ctb)
      = [bytesToHex ivb, bytesToHex tagb, bytesToHex ctb] := by
  unfold jsSplit bytesToHex
  have htl : (String.mk (ivb.flatMap byteToHexChars) ++ ":" ++
      String.mk (tagb.flatMap byteToHexChars) ++ ":" ++
      String.mk (ctb.flatMap byteToHexChars)).toList
      = ivb.flatMap byteToHexChars ++ ':' ::
        (tagb.flatMap byteToHexChars ++ ':' :: ctb.flatMap byteToHexChars) := by
    simp [String.toList, String.data_append]
  rw [htl, splitChar_append ':' _ _ (colon_not_mem_bytesToHex ivb),
    splitChar_append ':' _ _ (colon_not_mem_bytesToHex tagb),
    splitChar_not_mem ':' _ (colon_not_mem_bytesToHex ctb)]
  rfl

/-- A hex encoding of a nonempty byte list is not the empty string. -/
theorem bytesToHex_beq_empty_eq_false (bs : List Byte) (h : bs ≠ []) :
    (bytesToHex bs == "") = false := by
  cases bs with
  | nil => cases h rfl
  | cons b rest =>
    rw [beq_eq_false_iff_ne]
    intro heq
    have hdata := congrArg String.data heq
    simp only [bytesToHex, List.flatMap_cons, byteToHexChars,
      List.cons_append] at hdata
    cases hdata

/-- Claim C6: for every master key (64-hex used directly as raw key
bytes, anything else hashed once with SHA-256 — both conjuncts below) and
every JSON-serialisable payload, decrypting an encryption with the same
master key returns the payload.  The AEAD primitive, JSON serialisation
and byte-level SHA-256 are parameters constrained exactly by their
documented contracts. -/
theorem c6_encrypt_decrypt_roundtrip {α : Type}
    (aesEnc : List Byte → List Byte → List Byte → List Byte × List Byte)
    (aesDec : List Byte → List Byte → List Byte → List Byte → Option (List Byte))
    (sha256Str : String → List Byte)
    (jsonStringify : α → List Byte) (jsonParse : List Byte → Option α)
    (masterKey : String) (iv : List Byte) (p : α)
    (hAead : ∀ k i pt, aesDec k i (aesEnc k i pt).1 (aesEnc k i pt).2 = some pt)
    (hTag : ∀ k i pt, (aesEnc k i pt).2 ≠ [])
    (hCt : ∀ k i pt, pt ≠ [] → (aesEnc k i pt).1 ≠ [])
    (hJson : ∀ q, jsonParse (jsonStringify q) = some q)
    (hPt : ∀ q, jsonStringify q ≠ [])
    (hIv : iv ≠ []) :
    decryptJson aesDec jsonParse sha256Str masterKey
        (encryptJson aesEnc jsonStringify sha256Str masterKey iv p) = .ok p
    ∧ (isHex64 masterKey = true →
        getDerivedKey sha256Str masterKey = hexLenient masterKey.toList)
    ∧ (isHex64 masterKey = false →
        getDerivedKey sha256Str masterKey = sha256Str masterKey) := by
  refine ⟨?_, ?_, ?_⟩
  · unfold encryptJson decryptJson
    dsimp only
    rw [jsSplit_token]
    simp only [List.getD_cons_zero, List.getD_cons_succ]
    rw [bytesToHex_beq_empty_eq_false iv hIv,
      bytesToHex_beq_empty_eq_false _ (hTag _ _ _),
      bytesToHex_beq_empty_eq_false _ (hCt _ _ _ (hPt p))]
    simp only [Bool.or_self, Bool.or_false, Bool.false_eq_true, if_false]
    show (match aesDec (getDerivedKey sha256Str masterKey)
        (hexLenient (iv.flatMap byteToHexChars))
        (hexLenient ((aesEnc (getDerivedKey sha256Str masterKey) iv
          (jsonStringify p)).1.flatMap byteToHexChars))
        (hexLenient ((aesEnc (getDerivedKey sha256Str masterKey) iv
          (jsonStringify p)).2.flatMap byteToHexChars)) with
      | none => Except.error DecryptErr.authFailed
      | some plaintext =>
        match jsonParse plaintext with
        | none => Except.error DecryptErr.badJson
        | some v => Except.ok v) = Except.ok p
    rw [hexLenient_flatMap, hexLenient_flatMap, hexLenient_flatMap, hAead]
    dsimp only
    rw [hJson]
  · intro h
    unfold getDerivedKey
    rw [if_pos h]
  · intro h
    unfold getDerivedKey
    rw [if_neg (by simp [h])]

/-- Witness for `c6_encrypt_decrypt_roundtrip`: with the toy primitives,
encrypting the payload `true` under the passphrase master key `k` and
decrypting with the same key recovers `true`. -/
theorem c6_encrypt_decrypt_roundtrip_witness :
    decryptJson demoAesDec demoJsonParse demoSha256Str "k"
        (encryptJson demoAesEnc demoJsonStringify demoSha256Str "k" demoIv true)
      = .ok true :=
  (c6_encrypt_decrypt_roundtrip demoAesEnc demoAesDec demoSha256Str
    demoJsonStringify demoJsonParse "k" demoIv true
    (fun k i pt => by simp [demoAesEnc, demoAesDec])
    (fun k i pt => by simp [demoAesEnc])
    (fun k i pt h => by simpa [demoAesEnc] using h)
    (fun q => by cases q <;> rfl)
    (fun q => by cases q <;> simp [demoJsonStringify])
    (by simp [demoIv])).1

/-- Claim C7 (counterexample): the token `00:00:00:zz` does not parse
into exactly three segments (it has four), yet `decryptJson` does not
fail with the `InvalidPayload` class — the destructuring keeps only the
first three segments, and decryption succeeds. -/
theorem c7_extra_segment_counterexample :
    (jsSplit ':' "00:00:00:zz").length = 4
    ∧ decryptJson demoAesDec demoJsonParse demoSha256Str "k" "00:00:00:zz"
        = .ok false
    ∧ (Except.ok false : Except DecryptErr Bool) ≠ .error .invalidPayload := by
  refine ⟨by decide, rfl, ?_⟩
  intro h
  cases h

/-- Claim C7 (amended): `decryptJson` fails with `InvalidPayload` exactly
when one of the first three colon-separated segments is missing or empty
(extra segments beyond the third are ignored); when the three segments
are present and the AEAD tag check rejects (wrong key or corrupted
data), it fails with the distinct `AuthenticationFailed` class and never
returns data. -/
theorem c7_decrypt_error_classes {α : Type}
    (aesDec : List Byte → List Byte → List Byte → List Byte → Option (List Byte))
    (jsonParse : List Byte → Option α) (sha256Str : String → List Byte) :
    (∀ (masterKey encoded : String),
        firstThreeSegmentsBad encoded = true
          ↔ decryptJson aesDec jsonParse sha256Str masterKey encoded
              = .error .invalidPayload)
    ∧ (∀ (masterKey encoded : String),
        firstThreeSegmentsBad encoded = false →
        aesDec (getDerivedKey sha256Str masterKey)
            (hexLenient ((jsSplit ':' encoded).getD 0 "").toList)
            (hexLenient ((jsSplit ':' encoded).getD 2 "").toList)
            (hexLenient ((jsSplit ':' encoded).getD 1 "").toList) = none →
        decryptJson aesDec jsonParse sha256Str masterKey encoded
          = .error .authFailed)
    ∧ DecryptErr.invalidPayload ≠ DecryptErr.authFailed := by
  refine ⟨?_, ?_, by decide⟩
  · intro masterKey encoded
    unfold decryptJson firstThreeSegmentsBad
    dsimp only
    by_cases hbad : ((jsSplit ':' encoded).getD 0 "" == ""
        || (jsSplit ':' encoded).getD 1 "" == ""
        || (jsSplit ':' encoded).getD 2 "" == "") = true
    · rw [hbad, if_pos rfl]
      simp
    · rw [Bool.not_eq_true] at hbad
      rw [hbad, if_neg (by simp)]
      simp only [Bool.false_eq_true, false_iff]
      intro hcontra
      cases hdec : aesDec (getDerivedKey sha256Str masterKey)
          (hexLenient ((jsSplit ':' encoded).getD 0 "").toList)
          (hexLenient ((jsSplit ':' encoded).getD 2 "").toList)
          (hexLenient ((jsSplit ':' encoded).getD 1 "").toList) with
      | none => rw [hdec] at hcontra; cases hcontra
      | some pt =>
        rw [hdec] at hcontra
        dsimp only at hcontra
        cases hparse : jsonParse pt with
        | none => rw [hparse] at hcontra; cases hcontra
        | some v => rw [hparse] at hcontra; cases hcontra
  · intro masterKey encoded hok hdec
    unfold decryptJson
    dsimp only
    unfold firstThreeSegmentsBad at hok
    rw [hok, if_neg (by simp), hdec]

/-- Witness for `c7_decrypt_error_classes`: a well-formed three-segment
token rejected by the AEAD (wrong key or corruption) yields the
`AuthenticationFailed` class. -/
theorem c7_decrypt_error_classes_witness :
    decryptJson demoAesRejectDec demoJsonParse demoSha256Str "k" "00:00:00"
      = .error .authFailed :=
  (c7_decrypt_error_classes demoAesRejectDec demoJsonParse demoSha256Str).2.1
    "k" "00:00:00" (by decide) rfl
